import Mathlib

/-!
Verification of the routing-and-orchestration core of the signal-backend
repository.  The TypeScript services are shallowly embedded as pure Lean
functions: asynchronous calls to external collaborators (vector store,
rerank API, tool server, LLM backend) are passed in explicitly as
`Except`-valued outcomes, and a thrown JS exception is modelled as the
`Except.error` constructor of a function's result type.  Numbers are
rationals (JS numbers on the relevant code paths stay well inside the
exactly-representable range, and no float rounding is exercised by the
claims).
-/

namespace Signal

/-- Message roles, from the ChatMessage type (types/index.ts). -/
inductive Role
  | user
  | assistant
  | system
deriving DecidableEq, Repr

/-- A chat message, from types/index.ts. -/
structure ChatMessage where
  role : Role
  content : String
deriving DecidableEq, Repr

/-! ## Document processor (src/utils/documentProcessor.ts) -/

/-- A reranked document, from types/rag.ts: text, source metadata and the
(rounded) Cohere relevance score. -/
structure RankedDocument where
  text : String
  source : String
  relevance : ℚ
deriving DecidableEq, Repr

/-- Embeds `DocumentProcessor.filterDocumentsByRelevance`: keeps the documents whose
`relevance` is `>=` the retrieval cutoff. -/
def filterDocumentsByRelevance (retrievalCutoff : ℚ)
    (rankedDocuments : List RankedDocument) : List RankedDocument :=
  rankedDocuments.filter (fun document => retrievalCutoff ≤ document.relevance)

/-! ## Embedding-based intent classifier (services/ragService.ts, variant with
`classifyQuery` / `decideRetrievalStrategy`) -/

/-- JS `Math.round`: rounds half-up (toward positive infinity on ties). -/
def jsRound (x : ℚ) : ℤ := ⌊x + 1 / 2⌋

/-- Result of `RAGService.classifyQuery`.  `bestScore = none` models the
initial `-Infinity`, reachable only for an empty exemplar table. -/
structure ClassifyResult where
  bestIntent : String
  bestScore : Option ℚ
deriving DecidableEq, Repr

/-- The `for (const [intent, intentVector] of Object.entries(intentEmbeddings))`
loop of `classifyQuery`: updates the best entry whenever `score > bestScore`,
where the initial `bestScore` is `-Infinity` (modelled as `none`).
`cosineSimilarity` (utils/vectorUtils, not present under src/) is passed in as
an explicit function argument. -/
def classifyLoop (cosineSimilarity : List ℚ → List ℚ → ℚ) (queryEmbedding : List ℚ) :
    String × Option ℚ → List (String × List ℚ) → String × Option ℚ
  | st, [] => st
  | (bestIntent, bestScore), (intent, intentVector) :: rest =>
      let score := cosineSimilarity queryEmbedding intentVector
      match bestScore with
      | none => classifyLoop cosineSimilarity queryEmbedding (intent, some score) rest
      | some b =>
          if b < score then
            classifyLoop cosineSimilarity queryEmbedding (intent, some score) rest
          else
            classifyLoop cosineSimilarity queryEmbedding (bestIntent, some b) rest

/-- Embeds `RAGService.classifyQuery`: cosine-similarity argmax over the exemplar
table, starting from `('unknown', -Infinity)`; the returned score is rounded
to two decimals with `Math.round(bestScore * 100) / 100`. -/
def classifyQuery (cosineSimilarity : List ℚ → List ℚ → ℚ) (queryEmbedding : List ℚ)
    (intentEmbeddings : List (String × List ℚ)) : ClassifyResult :=
  let st := classifyLoop cosineSimilarity queryEmbedding ("unknown", none) intentEmbeddings
  { bestIntent := st.1
    bestScore := st.2.map (fun b => (jsRound (b * 100) : ℚ) / 100) }

/-- The retrieval-tuning fields of the validated environment (config/env.ts).
All six `RETRIEVAL_*` variables are declared (and validated) there. -/
structure EnvConfig where
  RETRIEVAL_MIDDLE_CUTOFF : ℚ
  RETRIEVAL_MIDDLE_TOP_K : ℕ
  RETRIEVAL_STRONG_CUTOFF : ℚ
  RETRIEVAL_STRONG_TOP_K : ℕ
  RETRIEVAL_WEAK_CUTOFF : ℚ
  RETRIEVAL_WEAK_TOP_K : ℕ
deriving DecidableEq, Repr

/-- A retrieval strategy, from types/rag.ts.  `metadata` is the optional
Chroma filter `\x7bsource: intent\x7d`, modelled by the intent name. -/
structure RetrievalDecision where
  retrievalCutoff : ℚ
  metadata : Option String
  top_k : ℕ
deriving DecidableEq, Repr

/-- Embeds `RAGService.decideRetrievalStrategy`: maps the winning similarity score to
one of three bands.  Note the middle band returns the literal `0.7`, and the
strong band overrides the cutoff to `0` for the `resume` intent. -/
def decideRetrievalStrategy (env : EnvConfig) (intent : String) (score : ℚ) :
    RetrievalDecision :=
  if (6 : ℚ) / 10 ≤ score then
    { retrievalCutoff := if intent = "resume" then 0 else env.RETRIEVAL_STRONG_CUTOFF
      metadata := some intent
      top_k := env.RETRIEVAL_STRONG_TOP_K }
  else if (4 : ℚ) / 10 ≤ score then
    { retrievalCutoff := (7 : ℚ) / 10
      metadata := none
      top_k := env.RETRIEVAL_MIDDLE_TOP_K }
  else
    { retrievalCutoff := env.RETRIEVAL_WEAK_CUTOFF
      metadata := none
      top_k := env.RETRIEVAL_WEAK_TOP_K }

/-! ## LLM-based intent router (services/orchestrationService.ts,
`OrchestrationService.smartRouting`) -/

/-- A smart-routing decision (orchestrationService.ts). -/
structure SmartRoutingDecision where
  useRAG : Bool
  mcpTool : String
  directResponse : Bool
  confidence : ℚ
  reasoning : String
deriving DecidableEq, Repr

/-- The safe fallback decision returned by the catch block of `smartRouting`. -/
def routingFallback : SmartRoutingDecision :=
  { useRAG := true
    mcpTool := ""
    directResponse := false
    confidence := 1 / 2
    reasoning := "Routing failed, defaulting to RAG for safety" }

/-- ASCII whitespace, modelling the JS regex class `\s` on the characters that
occur in chat-completion replies. -/
def isWs (c : Char) : Bool := c = ' ' || c = '\t' || c = '\n' || c = '\r'

/-- Drop leading whitespace (the `replace(. ```json\s* .., '')` tail). -/
def dropLeadingWs (s : String) : String := String.mk (s.data.dropWhile isWs)

/-- Drop trailing whitespace. -/
def dropTrailingWs (s : String) : String :=
  String.mk ((s.data.reverse.dropWhile isWs).reverse)

/-- The `replace(/\s*```$/, '')` step: if the string ends in a closing code
fence, remove it together with the whitespace run just before it. -/
def stripClosingFence (s : String) : String :=
  if s.endsWith "```" then dropTrailingWs (s.dropRight 3) else s

/-- The markdown code-fence stripping of `smartRouting`: trim the reply, then
remove a leading ` ```json ` or ` ``` ` fence (with following whitespace) and
a trailing ` ``` ` fence (with preceding whitespace). -/
def stripCodeFences (raw : String) : String :=
  let jsonText := raw.trim
  if jsonText.startsWith "```json" then
    stripClosingFence (dropLeadingWs (jsonText.drop 7))
  else if jsonText.startsWith "```" then
    stripClosingFence (dropLeadingWs (jsonText.drop 3))
  else jsonText

/-- Embeds `OrchestrationService.smartRouting`, with the two external effects made
explicit: `llmResult` is the outcome of the routing LLM call (`Except.error`
is a thrown transport error), and `jsonParse` models the platform
`JSON.parse` applied to the fence-stripped reply (`none` is a parse throw).
Both throw sites sit inside the same `try`, whose catch block returns
`routingFallback`. -/
def smartRouting (jsonParse : String → Option SmartRoutingDecision)
    (llmResult : Except String String) : SmartRoutingDecision :=
  match llmResult with
  | .error _ => routingFallback
  | .ok message =>
      match jsonParse (stripCodeFences message) with
      | none => routingFallback
      | some decision => decision

/-- The conversation `smartRouting` sends to `llmService.generateResponse`:
a single user message containing the routing prompt. -/
def smartRoutingMessages (routingPrompt : String) : List ChatMessage :=
  [{ role := .user, content := routingPrompt }]

/-! ## Tool invocation gateway (MCPClientService, unnamed/part_017) -/

/-- One item of MCP tool-result content. -/
structure ContentItem where
  type : String
  text : String
deriving DecidableEq, Repr

/-- The normalized tool result returned by `callTool`. -/
structure MCPToolResult where
  content : List ContentItem
  isError : Bool
deriving DecidableEq, Repr

/-- The raw `content` field of a tool response before normalization: an array,
a truthy non-array value (stringified by `String(...)`), or a falsy value. -/
inductive RawContent
  | arr (items : List ContentItem)
  | prim (s : String)
  | nullish
deriving DecidableEq, Repr

/-- A raw tool response as returned by `executeToolCall`. -/
structure RawToolResponse where
  content : RawContent
  isError : Bool
deriving DecidableEq, Repr

/-- Embeds `MCPClientService.normalizeResponseContent`. -/
def normalizeResponseContent : RawContent → List ContentItem
  | .arr items => items
  | .prim s => [{ type := "text", text := s }]
  | .nullish => []

/-- The connection flag of the `MCPClientService` singleton. -/
structure MCPState where
  isConnected : Bool
deriving DecidableEq, Repr

/-- The `try \x7b ... \x7d catch` body of `callTool`: a failure of
`executeToolCall` is converted into an error-flagged result. -/
def callToolBody (execResult : Except String RawToolResponse) : MCPToolResult :=
  match execResult with
  | .ok response =>
      { content := normalizeResponseContent response.content
        isError := response.isError }
  | .error e =>
      { content := [{ type := "text", text := "Tool execution failed: " ++ e }]
        isError := true }

/-- Embeds `MCPClientService.callTool`.  The lazy `if (!this.isConnected) await
this.connect();` runs BEFORE the `try` block, so a `connect` failure is
re-thrown to the caller (`Except.error`); only `executeToolCall` failures are
absorbed.  `connectResult` is the outcome of `connect()` when attempted. -/
def callTool (st : MCPState) (connectResult : Except String Unit)
    (execResult : Except String RawToolResponse) :
    Except String (MCPToolResult × MCPState) :=
  if st.isConnected then
    .ok (callToolBody execResult, st)
  else
    match connectResult with
    | .error e => .error ("MCP server connection failed: " ++ e)
    | .ok _ => .ok (callToolBody execResult, { isConnected := true })

/-! ## Relevance search (services/embeddingService.ts `searchSimilar` and
services/ragService.ts `searchSimilarContent`) -/

/-- The slot-0 projection of a Chroma `QueryResult`.  `documents` is
`results.documents[0]` (`none` when absent); per-index lookups that run off
the end of a parallel array produce `none` (JS `undefined`).  Metadata
records are treated as opaque strings. -/
structure QueryResult where
  documents : Option (List (Option String))
  metadatas : Option (List String)
  distances : Option (List ℚ)
  ids : Option (List String)
deriving DecidableEq, Repr

/-- One entry of a search result. -/
structure SearchResultItem where
  content : String
  metadata : Option String
  distance : Option ℚ
  id : Option String
deriving DecidableEq, Repr

/-- The `\x7bquery, results\x7d` object both search functions return. -/
structure SearchResult where
  query : String
  results : List SearchResultItem
deriving DecidableEq, Repr

/-- The shared mapping step of both search functions: pair each document slot
with the same-index metadata/distance/id, drop `null` documents, and build
result records. -/
def buildSearchResults (qr : QueryResult) : List SearchResultItem :=
  let docs := qr.documents.getD []
  (List.range docs.length).filterMap (fun index =>
    match docs.get? index with
    | some (some content) =>
        some { content := content
               metadata := qr.metadatas.bind (fun l => l.get? index)
               distance := qr.distances.bind (fun l => l.get? index)
               id := qr.ids.bind (fun l => l.get? index) }
    | _ => none)

/-- Embeds `EmbeddingService.searchSimilar`: the collection lookup and vector query
are the external call (`queryOutcome`); the surrounding `try/catch` converts
any failure into `\x7bquery, results: []\x7d`. -/
def searchSimilar (queryOutcome : Except String QueryResult) (query : String)
    (nResults : ℕ := 5) : SearchResult :=
  match queryOutcome with
  | .error _ => { query := query, results := [] }
  | .ok qr => { query := query, results := buildSearchResults qr }

/-- Embeds `RAGService.searchSimilarContent` (services/ragService.ts): same shape —
`retrieveCollection` plus `collection.query` are the external call, and the
`catch` returns `\x7bquery, results: []\x7d`. -/
def searchSimilarContent (queryOutcome : Except String QueryResult)
    (query : String) (resultCount : ℕ := 5) : SearchResult :=
  match queryOutcome with
  | .error _ => { query := query, results := [] }
  | .ok qr => { query := query, results := buildSearchResults qr }

/-! ## Streaming response generator (services/llmService.ts,
`LLMService.generateStreamingResponse`, first variant, lines 106-207) -/

/-- State of the stream parser: the accumulated completion text, the chunks
delivered to `onChunk` so far (in delivery order), the resolved completion
message (`none` while the promise is pending; `resolve` is first-call-wins),
and whether the current data handler has returned early after `[DONE]`. -/
structure StreamState where
  fullContent : String
  delivered : List String
  resolvedMsg : Option String
  halted : Bool
deriving DecidableEq, Repr

/-- Initial stream-parser state. -/
def streamInit : StreamState := ⟨"", [], none, false⟩

/-- JS `line.startsWith('data: ')`.  Phrased over the character list (rather
than `String.startsWith`, whose implementation does not reduce in the
kernel) so that concrete frames evaluate. -/
def startsWithData (line : String) : Bool :=
  line.data.take 6 == "data: ".data

/-- Processing of one line of a buffer chunk inside the `data` handler:
lines starting with `data: ` are frames; `[DONE]` resolves the promise with
the accumulated text and returns from the handler; otherwise the JSON frame
is parsed (`extract` models `JSON.parse(data).choices?.[0]?.delta?.content`,
`none` covering both parse failures and missing deltas) and a truthy
(non-empty) delta is appended to `fullContent` and handed to `onChunk`. -/
def processLine (extract : String → Option String) (st : StreamState)
    (line : String) : StreamState :=
  if st.halted then st
  else if startsWithData line then
    let data := line.drop 6
    if data = "[DONE]" then
      { st with
        resolvedMsg := match st.resolvedMsg with
          | some m => some m
          | none => some st.fullContent
        halted := true }
    else
      match extract data with
      | some content =>
          if content = "" then st
          else
            { st with
              fullContent := st.fullContent ++ content
              delivered := st.delivered ++ [content] }
      | none => st
  else st

/-- One `data` event: the buffer is split into lines and processed in order;
the `return` after `resolve` only skips the rest of this buffer. -/
def processBuffer (extract : String → Option String) (st : StreamState)
    (lines : List String) : StreamState :=
  lines.foldl (processLine extract) { st with halted := false }

/-- The `end` event handler: resolves with the accumulated text when `[DONE]`
was never seen (`resolve` is first-call-wins). -/
def endResolve (st : StreamState) : StreamState :=
  { st with
    resolvedMsg := match st.resolvedMsg with
      | some m => some m
      | none => some st.fullContent }

/-- Embeds the streaming loop of `LLMService.generateStreamingResponse`: folds
the data handler over the buffer chunks, then applies the `end` event. -/
def generateStreamingResponse (extract : String → Option String)
    (buffers : List (List String)) : StreamState :=
  endResolve (buffers.foldl (processBuffer extract) streamInit)

/-- Whether a line is the terminal sentinel frame (`startsWith` plus the
`[DONE]` comparison of the code collapse to this exact line). -/
def isDoneLine (line : String) : Bool :=
  startsWithData line && line.drop 6 == "[DONE]"

/-- The non-empty content delta carried by one line, if any. -/
def lineDelta (extract : String → Option String) (line : String) :
    Option String :=
  if startsWithData line then
    if line.drop 6 = "[DONE]" then none
    else
      match extract (line.drop 6) with
      | some content => if content = "" then none else some content
      | none => none
  else none

/-- All non-empty content deltas of a line sequence, in arrival order. -/
def nonEmptyDeltas (extract : String → Option String) (lines : List String) :
    List String :=
  lines.filterMap (lineDelta extract)

/-! ## Orchestrator conversations (services/orchestrationService.ts flows and
routes/chat.ts request schema) -/

/-- RAG_SYSTEM_PROMPT (prompts/index.ts). -/
def RAG_SYSTEM_PROMPT : String :=
  "You are Anthony Bruno, a frontend developer and engineering manager. Use the provided context to answer questions about yourself, your experience, and your background. Be conversational and authentic."

/-- MCP_SYSTEM_PROMPT (prompts/index.ts). -/
def MCP_SYSTEM_PROMPT : String :=
  "You are Anthony Bruno, a frontend developer and engineering manager. Use the provided live data from tools to answer questions about current information."

/-- DIRECT_LLM_SYSTEM_PROMPT (prompts/index.ts). -/
def DIRECT_LLM_SYSTEM_PROMPT : String :=
  "You are Anthony Bruno, a frontend developer and engineering manager. Answer questions naturally and helpfully."

/-- The conversation `executeRAGFlow` sends to the generator: system prompt,
then the request history, then the context-augmented user message. -/
def ragFlowMessages (conversationHistory : List ChatMessage)
    (contextMessage : String) : List ChatMessage :=
  { role := .system, content := RAG_SYSTEM_PROMPT } ::
    conversationHistory ++ [{ role := .user, content := contextMessage }]

/-- The conversation `executeMCPFlow` sends to the generator. -/
def mcpFlowMessages (conversationHistory : List ChatMessage)
    (contextMessage : String) : List ChatMessage :=
  { role := .system, content := MCP_SYSTEM_PROMPT } ::
    conversationHistory ++ [{ role := .user, content := contextMessage }]

/-- The conversation `executeDirectLLMFlow` sends to the generator. -/
def directLLMFlowMessages (conversationHistory : List ChatMessage)
    (message : String) : List ChatMessage :=
  { role := .system, content := DIRECT_LLM_SYSTEM_PROMPT } ::
    conversationHistory ++ [{ role := .user, content := message }]

/-- The role restriction of `chatRequestSchema` (routes/chat.ts): history
entries must have role `user` or `assistant` (`z.enum(['user','assistant'])`). -/
def historyRolesValid (conversationHistory : List ChatMessage) : Prop :=
  ∀ m ∈ conversationHistory, m.role = Role.user ∨ m.role = Role.assistant

/-- Number of system messages in a conversation. -/
def countSystem (messages : List ChatMessage) : ℕ :=
  (messages.filter (fun m => m.role = Role.system)).length

/-! ## Orchestrator dispatch (services/orchestrationService.ts,
`OrchestrationService.generateStreamingResponse`) -/

/-- Effects observable during one orchestrated streaming request. -/
inductive Event
  | ragSearched
  | toolCalled
  | llmStreamRequested
  | toolsStartingNotified
deriving DecidableEq, Repr

/-- Outcome of one `llmService.generateStreamingResponse` call: the chunks it
delivered to `onChunk` before either resolving (`ok = true`) or rejecting. -/
structure LLMStreamOutcome where
  chunks : List String
  ok : Bool
deriving DecidableEq, Repr

/-- The external outcomes one orchestrated request can observe.  The search
result is a plain list of retrieved contents because `searchSimilar` absorbs
its own failures (empty list covers the degraded mode). -/
structure OrchestratorEnv where
  searchResults : List String
  ragLLM : LLMStreamOutcome
  mcpLLM : LLMStreamOutcome
  directLLM : LLMStreamOutcome
  toolResult : Except String MCPToolResult
  directFormat : Except String String
deriving Repr

/-- A flow run: the events it performed, the chunks it delivered, and whether
it resolved or threw (with the thrown message). -/
structure FlowRun where
  events : List Event
  chunks : List String
  outcome : Except String Unit
deriving Repr

/-- Maximal runs of characters agreeing on whitespace-ness, in order. -/
def groupRuns : List Char → List (List Char)
  | [] => []
  | c :: rest =>
      match groupRuns rest with
      | [] => [[c]]
      | (d :: run) :: runs =>
          if isWs c = isWs d then (c :: d :: run) :: runs
          else [c] :: (d :: run) :: runs
      | [] :: runs => [c] :: runs

/-- The word splitting of `executeDirectMCPFlow`:
`formatted.split(/(\s+)/)` keeps separator runs, and the `if (word)` guard
drops empty fragments, so the streamed words are the maximal runs of
whitespace / non-whitespace characters, in order. -/
def wordRuns (s : String) : List String :=
  (groupRuns s.data).map String.mk

/-- Embeds `executeDirectLLMFlow`: one streaming generator call; a rejection
propagates to the caller. -/
def executeDirectLLMFlow (env : OrchestratorEnv) : FlowRun :=
  { events := [.llmStreamRequested]
    chunks := env.directLLM.chunks
    outcome :=
      if env.directLLM.ok then .ok ()
      else .error "Failed to generate streaming LLM response" }

/-- Embeds `executeRAGFlow`: search (whose own failures already degraded to an
empty result), fall back to the direct flow on an empty result, otherwise
stream; a generator rejection is caught and also falls back to the direct
flow after the already-delivered chunks. -/
def executeRAGFlow (env : OrchestratorEnv) : FlowRun :=
  if env.searchResults.isEmpty then
    let d := executeDirectLLMFlow env
    { d with events := Event.ragSearched :: d.events }
  else if env.ragLLM.ok then
    { events := [.ragSearched, .llmStreamRequested]
      chunks := env.ragLLM.chunks
      outcome := .ok () }
  else
    let d := executeDirectLLMFlow env
    { events := Event.ragSearched :: Event.llmStreamRequested :: d.events
      chunks := env.ragLLM.chunks ++ d.chunks
      outcome := d.outcome }

/-- The text `getMCPToolData` extracts for the context: a thrown `callTool`
(possible: clause C3) is caught and replaced by an unavailability note, and
error-flagged or empty results contribute nothing. -/
def getMCPToolData (toolName : String) (toolResult : Except String MCPToolResult) :
    List String :=
  match toolResult with
  | .error _ => ["[" ++ toolName ++ "]: Error - Tool unavailable"]
  | .ok result =>
      if !result.isError && !result.content.isEmpty then
        let textContent :=
          String.intercalate " "
            ((result.content.filter (fun item => item.type == "text")).map
              (fun item => item.text))
        if textContent = "" then [] else ["[" ++ toolName ++ "]: " ++ textContent]
      else []

/-- Embeds `executeMCPFlow`: notify, call the tool (its failures absorbed by
`getMCPToolData`), stream with the tool context; a generator rejection is
caught and falls back to the direct flow. -/
def executeMCPFlow (env : OrchestratorEnv) : FlowRun :=
  if env.mcpLLM.ok then
    { events := [.toolsStartingNotified, .toolCalled, .llmStreamRequested]
      chunks := env.mcpLLM.chunks
      outcome := .ok () }
  else
    let d := executeDirectLLMFlow env
    { events := Event.toolsStartingNotified :: Event.toolCalled ::
        Event.llmStreamRequested :: d.events
      chunks := env.mcpLLM.chunks ++ d.chunks
      outcome := d.outcome }

/-- Embeds `executeDirectMCPFlow`: notify, format the tool result directly
(`mcpResponseService.formatDirectResponse`, which invokes the tool), stream
it word by word; on failure the flow throws `Failed to execute MCP tools`
without producing content. -/
def executeDirectMCPFlow (env : OrchestratorEnv) : FlowRun :=
  match env.directFormat with
  | .ok formatted =>
      { events := [.toolsStartingNotified, .toolCalled]
        chunks := wordRuns formatted
        outcome := .ok () }
  | .error _ =>
      { events := [.toolsStartingNotified, .toolCalled]
        chunks := []
        outcome := .error "Failed to execute MCP tools" }

/-- Embeds the dispatch of `OrchestrationService.generateStreamingResponse`
on an already-computed routing decision (`smartRouting` itself never throws):
direct tool response first, then RAG, then tool-with-LLM, then direct LLM.
JS truthiness of `routing.mcpTool` is non-emptiness. -/
def dispatchStreamingResponse (env : OrchestratorEnv)
    (routing : SmartRoutingDecision) : FlowRun :=
  if routing.directResponse = true ∧ routing.mcpTool ≠ "" then
    executeDirectMCPFlow env
  else if routing.useRAG = true then
    executeRAGFlow env
  else if routing.mcpTool ≠ "" then
    executeMCPFlow env
  else
    executeDirectLLMFlow env

/-! ## Fallback totality surfaces: `OrchestrationService.handleChatRequest`
(unnamed/part_007) and the streaming chat route (routes/chat.ts) -/

/-- MESSAGES.llm.streamingFailedGeneral (utils/messages.ts). -/
def streamingFailedGeneral : String := "Failed to generate streaming LLM response"

/-- MESSAGES.api.failedResponse (utils/messages.ts). -/
def failedResponseMsg : String := "Failed to generate response"

/-- Caller-visible callbacks fired by `handleChatRequest`. -/
inductive Out
  | chunk (s : String)
  | toolsStarting (tool : String)
deriving DecidableEq, Repr

/-- External outcomes of one `handleChatRequest` run: the retrieval result
(`findRelevantContext`, `Except.error` when it throws), the generator result
(chunks delivered before either resolving with an optional first tool call,
or rejecting), and the direct tool formatting result
(`mcpResponseService.createDirectResponse`). -/
structure HandleEnv where
  ragContext : Except String (Option String)
  gen : Except (List String) (List String × Option String)
  toolFormat : Except String String
deriving Repr

/-- Embeds `OrchestrationService.handleToolCall`: notify, format, stream the
formatted text character by character; any failure after the notification is
caught and surfaces as the general fallback chunk. -/
def handleToolCall (env : HandleEnv) (toolName : String) : List Out :=
  Out.toolsStarting toolName ::
    (match env.toolFormat with
     | .ok formatted => formatted.data.map (fun c => Out.chunk (String.mk [c]))
     | .error _ => [Out.chunk streamingFailedGeneral])

/-- Embeds `OrchestrationService.handleChatRequest` (unnamed/part_007): the
retrieval and generation steps sit in one `try` whose catch emits the general
fallback chunk; a tool call requested by the generator is handled by
`handleToolCall`, which has its own catch. -/
def handleChatRequest (env : HandleEnv) : List Out :=
  match env.ragContext with
  | .error _ => [Out.chunk streamingFailedGeneral]
  | .ok _ =>
      match env.gen with
      | .error preChunks => preChunks.map Out.chunk ++ [Out.chunk streamingFailedGeneral]
      | .ok (chunks, none) => chunks.map Out.chunk
      | .ok (chunks, some toolName) => chunks.map Out.chunk ++ handleToolCall env toolName

/-- Frames the streaming chat route writes to the caller (routes/chat.ts). -/
inductive Frame
  | chunk (s : String)
  | toolsStarting
  | done
  | error (msg : String)
deriving DecidableEq, Repr

/-- Embeds the streaming route body around the orchestrator call: every chunk
and tool notification is written as a frame as it arrives; on resolution a
`done` frame is written, and the route-level catch writes a single
user-safe `error` frame instead; `res.end()` follows either way. -/
def streamRoute (outs : List Out) (outcome : Except String Unit) : List Frame :=
  (outs.map (fun o =>
    match o with
    | .chunk s => Frame.chunk s
    | .toolsStarting _ => Frame.toolsStarting))
  ++ (match outcome with
      | .ok _ => [Frame.done]
      | .error _ => [Frame.error failedResponseMsg])

/-- A single-stage failure injected into a `handleChatRequest` run: the
retrieval stage threw, the generation transport failed, or the tool
invocation requested by the generator failed. -/
def failureInjected (env : HandleEnv) : Prop :=
  (∃ e, env.ragContext = .error e)
  ∨ (∃ pre, env.gen = .error pre)
  ∨ (∃ chunks toolName e, env.gen = .ok (chunks, some toolName)
      ∧ env.toolFormat = .error e)

/-! ## Theorems -/

/-- C2: the Intent Router never throws to its caller: for every LLM routing
reply whose fence-stripped text fails to parse as JSON and for every
transport error, `smartRouting` returns exactly the safe fallback decision
`useRAG = true, mcpTool = "", directResponse = false, confidence = 0.5`. -/
theorem C2_router_never_throws
    (jsonParse : String → Option SmartRoutingDecision) (reply err : String)
    (h : jsonParse (stripCodeFences reply) = none) :
    smartRouting jsonParse (Except.ok reply) = routingFallback
    ∧ smartRouting jsonParse (Except.error err) = routingFallback
    ∧ routingFallback.useRAG = true
    ∧ routingFallback.mcpTool = ""
    ∧ routingFallback.directResponse = false
    ∧ routingFallback.confidence = 1 / 2 := by
  refine ⟨?_, rfl, rfl, rfl, rfl, rfl⟩
  simp only [smartRouting, h]

/-- Witness for C2 at a concrete unparseable reply. -/
theorem C2_router_never_throws_witness :
    ((fun _ : String => (none : Option SmartRoutingDecision))
        (stripCodeFences "not json") = none)
    ∧ smartRouting (fun _ => none) (Except.ok "not json") = routingFallback :=
  ⟨rfl, (C2_router_never_throws (fun _ => none) "not json" "boom" rfl).1⟩

/-- C3 counterexample: a transport failure while lazily establishing the
connection on first use is thrown out of `callTool` (the lazy `connect()`
call precedes the `try` block), rather than returned as an error-flagged
result. -/
theorem C3_counterexample_connect_throws :
    callTool ⟨false⟩ (Except.error "ECONNREFUSED")
        (Except.ok ⟨RawContent.nullish, false⟩)
      = Except.error "MCP server connection failed: ECONNREFUSED" := rfl

/-- C3 amended: once the client is connected (or when the lazy connect
succeeds), `callTool` never throws, and any failure of the tool execution
itself is returned as
`content = [type "text", text "Tool execution failed: ..."], isError = true`. -/
theorem C3_calltool_never_throws_after_connect (st : MCPState)
    (connectResult : Except String Unit)
    (execResult : Except String RawToolResponse)
    (h : st.isConnected = true ∨ connectResult = Except.ok ()) :
    ∃ result st2, callTool st connectResult execResult = Except.ok (result, st2)
      ∧ ∀ e, execResult = Except.error e →
          result = { content := [{ type := "text", text := "Tool execution failed: " ++ e }]
                     isError := true } := by
  cases hst : st.isConnected with
  | true =>
      exact ⟨callToolBody execResult, st, by simp [callTool, hst],
        fun e he => by simp [callToolBody, he]⟩
  | false =>
      rcases h with h | h
      · exact absurd (hst ▸ h) (by simp)
      · exact ⟨callToolBody execResult, ⟨true⟩, by simp [callTool, hst, h],
          fun e he => by simp [callToolBody, he]⟩

/-- Witness for the amended C3 at a concrete connected state and failing
execution. -/
theorem C3_calltool_never_throws_after_connect_witness :
    ((⟨true⟩ : MCPState).isConnected = true
      ∨ (Except.ok () : Except String Unit) = Except.ok ())
    ∧ ∃ result st2,
        callTool ⟨true⟩ (Except.ok ()) (Except.error "timeout")
          = Except.ok (result, st2)
        ∧ ∀ e, (Except.error "timeout" : Except String RawToolResponse)
              = Except.error e →
            result = { content := [{ type := "text", text := "Tool execution failed: " ++ e }]
                       isError := true } :=
  ⟨Or.inl rfl,
    C3_calltool_never_throws_after_connect ⟨true⟩ (Except.ok ())
      (Except.error "timeout") (Or.inl rfl)⟩

/-- C4: relevance search degrades instead of failing: whenever the vector
store is unreachable or the collection is missing (the external call throws),
both `searchSimilar` and `searchSimilarContent` return the degraded
`query, results = []` value, and in every case they return a well-formed
result echoing the query (they never throw: their result type is total). -/
theorem C4_search_degrades (query : String) (n m : ℕ) (e : String) :
    searchSimilar (Except.error e) query n = { query := query, results := [] }
    ∧ searchSimilarContent (Except.error e) query m = { query := query, results := [] }
    ∧ ∀ queryOutcome : Except String QueryResult,
        (searchSimilar queryOutcome query n).query = query
        ∧ (searchSimilarContent queryOutcome query m).query = query := by
  refine ⟨rfl, rfl, fun queryOutcome => ?_⟩
  cases queryOutcome <;> exact ⟨rfl, rfl⟩

/-- C5: the rerank filter is exactly a cutoff filter: it returns the ordered
subsequence of documents with `relevance >= cutoff`; on relevances
`[0.9, 0.65, 0.3]` with cutoff `0.7` exactly the first document remains; and
raising the cutoff never enlarges the result. -/
theorem C5_rerank_cutoff_filter (c c1 c2 : ℚ) (l : List RankedDocument)
    (h : c1 ≤ c2) :
    List.Sublist (filterDocumentsByRelevance c l) l
    ∧ (∀ d, d ∈ filterDocumentsByRelevance c l ↔ d ∈ l ∧ c ≤ d.relevance)
    ∧ List.Sublist (filterDocumentsByRelevance c2 l) (filterDocumentsByRelevance c1 l)
    ∧ filterDocumentsByRelevance (7 / 10)
        [⟨"a", "s1", 9 / 10⟩, ⟨"b", "s2", 65 / 100⟩, ⟨"c", "s3", 3 / 10⟩]
      = [⟨"a", "s1", 9 / 10⟩] := by
  refine ⟨List.filter_sublist l, ?_, ?_,
    by norm_num [filterDocumentsByRelevance, List.filter_cons, List.filter_nil]⟩
  · intro d
    simp [filterDocumentsByRelevance, List.mem_filter]
  · apply List.monotone_filter_right
    intro a ha
    simp only [decide_eq_true_eq] at *
    linarith

/-- Witness for C5 at cutoffs `0.5 <= 0.7` and a one-document list. -/
theorem C5_rerank_cutoff_filter_witness :
    ((1 : ℚ) / 2 ≤ 7 / 10)
    ∧ List.Sublist
        (filterDocumentsByRelevance ((7 : ℚ) / 10) [⟨"a", "s1", 9 / 10⟩])
        (filterDocumentsByRelevance ((1 : ℚ) / 2) [⟨"a", "s1", 9 / 10⟩]) :=
  ⟨by norm_num,
    (C5_rerank_cutoff_filter (7 / 10) (1 / 2) (7 / 10) [⟨"a", "s1", 9 / 10⟩]
      (by norm_num)).2.2.1⟩

/-- C7 (code bug): the middle band's retrieval cutoff is the hardcoded
literal `0.7`, not the declared `RETRIEVAL_MIDDLE_CUTOFF` configuration
parameter: two environments that differ only in `RETRIEVAL_MIDDLE_CUTOFF`
(set to `0.5` and `0.25`) both produce cutoff `0.7` for a middle-band score
of `0.5`. -/
theorem C7_middle_cutoff_hardcoded :
    (decideRetrievalStrategy
        { RETRIEVAL_MIDDLE_CUTOFF := 1 / 2, RETRIEVAL_MIDDLE_TOP_K := 20
          RETRIEVAL_STRONG_CUTOFF := 2 / 10, RETRIEVAL_STRONG_TOP_K := 10
          RETRIEVAL_WEAK_CUTOFF := 2 / 10, RETRIEVAL_WEAK_TOP_K := 25 }
        "skills" (1 / 2)).retrievalCutoff = 7 / 10
    ∧ (decideRetrievalStrategy
        { RETRIEVAL_MIDDLE_CUTOFF := 1 / 4, RETRIEVAL_MIDDLE_TOP_K := 20
          RETRIEVAL_STRONG_CUTOFF := 2 / 10, RETRIEVAL_STRONG_TOP_K := 10
          RETRIEVAL_WEAK_CUTOFF := 2 / 10, RETRIEVAL_WEAK_TOP_K := 25 }
        "skills" (1 / 2)).retrievalCutoff = 7 / 10
    ∧ ((1 : ℚ) / 2 ≠ 7 / 10 ∧ (1 : ℚ) / 4 ≠ 7 / 10) := by
  refine ⟨by norm_num [decideRetrievalStrategy],
    by norm_num [decideRetrievalStrategy], by norm_num⟩

/-- C9 counterexample: the routing-decision call of `smartRouting` is a
conversation the Orchestrator sends to the Response Generator
(`llmService.generateResponse`) containing no system message at all, so the
universally quantified claim fails. -/
theorem C9_counterexample_routing_call :
    countSystem (smartRoutingMessages "routing prompt") = 0
    ∧ (smartRoutingMessages "routing prompt").head?
        = some { role := Role.user, content := "routing prompt" } :=
  ⟨rfl, rfl⟩

/-- C9 amended: every conversation one of the three generation flows (RAG,
MCP-with-LLM, direct LLM) sends to the Response Generator starts with its
flow's system prompt and contains exactly one system message, because the
request schema admits only user/assistant roles in the history. -/
theorem C9_flows_single_system_message (conversationHistory : List ChatMessage)
    (ctxMsg toolCtxMsg userMsg : String)
    (h : historyRolesValid conversationHistory) :
    countSystem (ragFlowMessages conversationHistory ctxMsg) = 1
    ∧ countSystem (mcpFlowMessages conversationHistory toolCtxMsg) = 1
    ∧ countSystem (directLLMFlowMessages conversationHistory userMsg) = 1
    ∧ (ragFlowMessages conversationHistory ctxMsg).head?
        = some { role := Role.system, content := RAG_SYSTEM_PROMPT }
    ∧ (mcpFlowMessages conversationHistory toolCtxMsg).head?
        = some { role := Role.system, content := MCP_SYSTEM_PROMPT }
    ∧ (directLLMFlowMessages conversationHistory userMsg).head?
        = some { role := Role.system, content := DIRECT_LLM_SYSTEM_PROMPT } := by
  have hnil : conversationHistory.filter (fun m => m.role = Role.system) = [] := by
    rw [List.filter_eq_nil_iff]
    intro m hm
    rcases h m hm with hr | hr <;> simp [hr]
  refine ⟨?_, ?_, ?_, rfl, rfl, rfl⟩ <;>
    simp [countSystem, ragFlowMessages, mcpFlowMessages, directLLMFlowMessages,
      List.filter_cons, List.filter_append, hnil]

/-- Witness for the amended C9 at a concrete valid two-message history. -/
theorem C9_flows_single_system_message_witness :
    historyRolesValid [⟨Role.user, "hi"⟩, ⟨Role.assistant, "hello"⟩]
    ∧ countSystem (ragFlowMessages [⟨Role.user, "hi"⟩, ⟨Role.assistant, "hello"⟩] "ctx") = 1 :=
  ⟨by unfold historyRolesValid; decide,
    (C9_flows_single_system_message [⟨Role.user, "hi"⟩, ⟨Role.assistant, "hello"⟩]
      "ctx" "tool" "msg" (by unfold historyRolesValid; decide)).1⟩

/-- Whether an event is a tool invocation. -/
def isToolEvent : Event → Bool
  | .toolCalled => true
  | _ => false

/-- C10: the Orchestrator dispatches to exactly one flow by fixed priority —
direct tool response, then RAG, then tool-with-LLM, then direct LLM — and no
reachable execution performs both a RAG search and a tool invocation, even
when the decision sets both `useRAG` and `mcpTool`. -/
theorem C10_dispatch_priority_exclusive (env : OrchestratorEnv)
    (routing : SmartRoutingDecision) :
    (((dispatchStreamingResponse env routing).events.contains Event.ragSearched)
      && ((dispatchStreamingResponse env routing).events.any isToolEvent)) = false
    ∧ (routing.directResponse = true → routing.mcpTool ≠ "" →
        dispatchStreamingResponse env routing = executeDirectMCPFlow env)
    ∧ ((routing.directResponse = false ∨ routing.mcpTool = "") →
        routing.useRAG = true →
        dispatchStreamingResponse env routing = executeRAGFlow env)
    ∧ ((routing.directResponse = false ∨ routing.mcpTool = "") →
        routing.useRAG = false → routing.mcpTool ≠ "" →
        dispatchStreamingResponse env routing = executeMCPFlow env)
    ∧ ((routing.directResponse = false ∨ routing.mcpTool = "") →
        routing.useRAG = false → routing.mcpTool = "" →
        dispatchStreamingResponse env routing = executeDirectLLMFlow env) := by
  have hnot : ∀ hd : routing.directResponse = false ∨ routing.mcpTool = "",
      ¬(routing.directResponse = true ∧ routing.mcpTool ≠ "") := by
    rintro (hd | hd) ⟨h1, h2⟩
    · rw [hd] at h1; exact Bool.false_ne_true h1
    · exact h2 hd
  refine ⟨?_, ?_, ?_, ?_, ?_⟩
  · unfold dispatchStreamingResponse
    split
    · unfold executeDirectMCPFlow
      rcases env.directFormat <;> simp [isToolEvent]
    · split
      · unfold executeRAGFlow executeDirectLLMFlow
        rcases hse : env.searchResults.isEmpty <;>
          rcases hok : env.ragLLM.ok <;> simp [hse, hok, isToolEvent]
      · split
        · unfold executeMCPFlow executeDirectLLMFlow
          rcases hok : env.mcpLLM.ok <;> simp [hok, isToolEvent]
        · unfold executeDirectLLMFlow
          simp [isToolEvent]
  · intro h1 h2
    simp [dispatchStreamingResponse, h1, h2]
  · intro hd hr
    rw [dispatchStreamingResponse, if_neg (hnot hd), if_pos hr]
  · intro hd hr hm
    rw [dispatchStreamingResponse, if_neg (hnot hd),
      if_neg (by rw [hr]; exact Bool.false_ne_true), if_pos hm]
  · intro hd hr hm
    rw [dispatchStreamingResponse, if_neg (hnot hd),
      if_neg (by rw [hr]; exact Bool.false_ne_true), if_neg (by simp [hm])]

/-- Witness for C10: a decision with both `useRAG` and `mcpTool` set (and
`directResponse` false) dispatches to the RAG flow only. -/
theorem C10_dispatch_priority_exclusive_witness :
    (((SmartRoutingDecision.mk true "get_github_activity" false 1 "both set").directResponse = false)
      ∨ (SmartRoutingDecision.mk true "get_github_activity" false 1 "both set").mcpTool = "")
    ∧ dispatchStreamingResponse
        ⟨["doc"], ⟨["hi"], true⟩, ⟨[], true⟩, ⟨[], true⟩, .ok ⟨[], false⟩, .ok "song"⟩
        (SmartRoutingDecision.mk true "get_github_activity" false 1 "both set")
      = executeRAGFlow
          ⟨["doc"], ⟨["hi"], true⟩, ⟨[], true⟩, ⟨[], true⟩, .ok ⟨[], false⟩, .ok "song"⟩ :=
  ⟨Or.inl rfl,
    (C10_dispatch_priority_exclusive
      ⟨["doc"], ⟨["hi"], true⟩, ⟨[], true⟩, ⟨[], true⟩, .ok ⟨[], false⟩, .ok "song"⟩
      (SmartRoutingDecision.mk true "get_github_activity" false 1 "both set")).2.2.1
      (Or.inl rfl) rfl⟩

/-- C1: fallback totality.  For any single-stage failure injected at
retrieval, generation transport, or tool invocation, `handleChatRequest`
still delivers a non-empty output containing the user-safe fallback chunk;
and the streaming route always ends the response with a terminal frame
(`done` on resolution, a user-safe `error` frame on any rejection), so the
caller always receives a non-empty terminal frame sequence. -/
theorem C1_fallback_totality (env : HandleEnv) (outs : List Out)
    (outcome : Except String Unit) (h : failureInjected env) :
    (Out.chunk streamingFailedGeneral ∈ handleChatRequest env
      ∧ streamingFailedGeneral ≠ "")
    ∧ handleChatRequest env ≠ []
    ∧ ((streamRoute outs outcome).getLast? = some Frame.done
        ∨ (streamRoute outs outcome).getLast? = some (Frame.error failedResponseMsg))
    ∧ streamRoute outs outcome ≠ [] := by
  have hmem : Out.chunk streamingFailedGeneral ∈ handleChatRequest env := by
    rcases h with ⟨e, he⟩ | ⟨pre, hp⟩ | ⟨chunks, toolName, e, hg, ht⟩
    · simp [handleChatRequest, he]
    · cases hr : env.ragContext with
      | error e => simp [handleChatRequest, hr]
      | ok ctx => simp [handleChatRequest, hr, hp]
    · cases hr : env.ragContext with
      | error e => simp [handleChatRequest, hr]
      | ok ctx => simp [handleChatRequest, hr, hg, handleToolCall, ht]
  refine ⟨⟨hmem, by simp [streamingFailedGeneral]⟩,
    List.ne_nil_of_mem hmem, ?_, ?_⟩
  · cases outcome with
    | ok u => exact Or.inl (by simp [streamRoute])
    | error e => exact Or.inr (by simp [streamRoute])
  · cases outcome <;> simp [streamRoute]

/-- Witness for C1 at a concrete retrieval failure. -/
theorem C1_fallback_totality_witness :
    failureInjected ⟨.error "chroma down", .ok ([], none), .ok "x"⟩
    ∧ Out.chunk streamingFailedGeneral
        ∈ handleChatRequest ⟨.error "chroma down", .ok ([], none), .ok "x"⟩ :=
  ⟨Or.inl ⟨"chroma down", rfl⟩,
    (C1_fallback_totality ⟨.error "chroma down", .ok ([], none), .ok "x"⟩ []
      (.ok ()) (Or.inl ⟨"chroma down", rfl⟩)).1.1⟩

/-- Helper: from a finite running best `b`, the classifier loop either keeps
its state (when every remaining score is at most `b`) or ends on the first
later entry that strictly exceeds `b` and every other remaining score. -/
theorem classifyLoop_spec (cosineSimilarity : List ℚ → List ℚ → ℚ)
    (queryEmbedding : List ℚ) (l : List (String × List ℚ)) :
    ∀ (bi : String) (b : ℚ),
      (classifyLoop cosineSimilarity queryEmbedding (bi, some b) l = (bi, some b)
        ∧ ∀ f ∈ l, cosineSimilarity queryEmbedding f.2 ≤ b)
      ∨ (∃ l1 e l2, l = l1 ++ e :: l2
          ∧ classifyLoop cosineSimilarity queryEmbedding (bi, some b) l
              = (e.1, some (cosineSimilarity queryEmbedding e.2))
          ∧ b < cosineSimilarity queryEmbedding e.2
          ∧ (∀ f ∈ l, cosineSimilarity queryEmbedding f.2
              ≤ cosineSimilarity queryEmbedding e.2)
          ∧ ∀ f ∈ l1, cosineSimilarity queryEmbedding f.2
              < cosineSimilarity queryEmbedding e.2) := by
  induction l with
  | nil => exact fun bi b => Or.inl ⟨rfl, by simp⟩
  | cons head rest ih =>
      intro bi b
      obtain ⟨intent, vec⟩ := head
      by_cases hbs : b < cosineSimilarity queryEmbedding vec
      · have hstep :
            classifyLoop cosineSimilarity queryEmbedding (bi, some b)
                ((intent, vec) :: rest)
              = classifyLoop cosineSimilarity queryEmbedding
                  (intent, some (cosineSimilarity queryEmbedding vec)) rest := by
          simp [classifyLoop, hbs]
        rcases ih intent (cosineSimilarity queryEmbedding vec) with
          ⟨heq, hle⟩ | ⟨l1, e, l2, hsplit, heq, hlt, hmax, hpre⟩
        · right
          refine ⟨[], (intent, vec), rest, rfl, by rw [hstep, heq], hbs, ?_, by simp⟩
          intro f hf
          rcases List.mem_cons.1 hf with hf | hf
          · subst hf; exact le_refl _
          · exact hle f hf
        · right
          refine ⟨(intent, vec) :: l1, e, l2, by simp [hsplit], by rw [hstep, heq],
            lt_trans hbs hlt, ?_, ?_⟩
          · intro f hf
            rcases List.mem_cons.1 hf with hf | hf
            · subst hf; exact le_of_lt hlt
            · exact hmax f hf
          · intro f hf
            rcases List.mem_cons.1 hf with hf | hf
            · subst hf; exact hlt
            · exact hpre f hf
      · have hs : cosineSimilarity queryEmbedding vec ≤ b := not_lt.1 hbs
        have hstep :
            classifyLoop cosineSimilarity queryEmbedding (bi, some b)
                ((intent, vec) :: rest)
              = classifyLoop cosineSimilarity queryEmbedding (bi, some b) rest := by
          simp [classifyLoop, hbs]
        rcases ih bi b with ⟨heq, hle⟩ | ⟨l1, e, l2, hsplit, heq, hlt, hmax, hpre⟩
        · left
          refine ⟨by rw [hstep, heq], ?_⟩
          intro f hf
          rcases List.mem_cons.1 hf with hf | hf
          · subst hf; exact hs
          · exact hle f hf
        · right
          refine ⟨(intent, vec) :: l1, e, l2, by simp [hsplit], by rw [hstep, heq],
            hlt, ?_, ?_⟩
          · intro f hf
            rcases List.mem_cons.1 hf with hf | hf
            · subst hf; exact le_trans hs (le_of_lt hlt)
            · exact hmax f hf
          · intro f hf
            rcases List.mem_cons.1 hf with hf | hf
            · subst hf; exact lt_of_le_of_lt hs hlt
            · exact hpre f hf

/-- C6: the embedding-based classifier is a deterministic argmax: on every
non-empty exemplar table, `classifyQuery` returns the intent of the first
entry whose similarity to the query embedding attains the maximum (every
entry scores at most it, every earlier entry scores strictly below it).
Determinism is immediate: `classifyQuery` is a pure function of the query
embedding and the table.  The similarity function is universally quantified,
so the statement holds in particular for cosine similarity. -/
theorem C6_classifier_argmax (cosineSimilarity : List ℚ → List ℚ → ℚ)
    (queryEmbedding : List ℚ) (intentEmbeddings : List (String × List ℚ))
    (h : intentEmbeddings ≠ []) :
    ∃ l1 e l2, intentEmbeddings = l1 ++ e :: l2
      ∧ (classifyQuery cosineSimilarity queryEmbedding intentEmbeddings).bestIntent
          = e.1
      ∧ (∀ f ∈ intentEmbeddings, cosineSimilarity queryEmbedding f.2
          ≤ cosineSimilarity queryEmbedding e.2)
      ∧ ∀ f ∈ l1, cosineSimilarity queryEmbedding f.2
          < cosineSimilarity queryEmbedding e.2 := by
  obtain ⟨⟨intent, vec⟩, rest, rfl⟩ : ∃ hd tl, intentEmbeddings = hd :: tl := by
    cases intentEmbeddings with
    | nil => exact absurd rfl h
    | cons hd tl => exact ⟨hd, tl, rfl⟩
  have hstep :
      classifyLoop cosineSimilarity queryEmbedding ("unknown", none)
          ((intent, vec) :: rest)
        = classifyLoop cosineSimilarity queryEmbedding
            (intent, some (cosineSimilarity queryEmbedding vec)) rest := by
    simp [classifyLoop]
  rcases classifyLoop_spec cosineSimilarity queryEmbedding rest intent
      (cosineSimilarity queryEmbedding vec) with
    ⟨heq, hle⟩ | ⟨l1, e, l2, hsplit, heq, hlt, hmax, hpre⟩
  · refine ⟨[], (intent, vec), rest, rfl, by simp [classifyQuery, hstep, heq], ?_, by simp⟩
    intro f hf
    rcases List.mem_cons.1 hf with hf | hf
    · subst hf; exact le_refl _
    · exact hle f hf
  · refine ⟨(intent, vec) :: l1, e, l2, by simp [hsplit],
      by simp [classifyQuery, hstep, heq], ?_, ?_⟩
    · intro f hf
      rcases List.mem_cons.1 hf with hf | hf
      · subst hf; exact le_of_lt hlt
      · exact hmax f hf
    · intro f hf
      rcases List.mem_cons.1 hf with hf | hf
      · subst hf; exact hlt
      · exact hpre f hf

/-- Witness for C6 at a concrete three-entry table with a tie between the
second and third entries. -/
theorem C6_classifier_argmax_witness :
    (([("resume", [(1 : ℚ)]), ("faq", [2]), ("blog", [2])] :
        List (String × List ℚ)) ≠ [])
    ∧ ∃ l1 e l2,
        ([("resume", [(1 : ℚ)]), ("faq", [2]), ("blog", [2])] :
            List (String × List ℚ)) = l1 ++ e :: l2
        ∧ (classifyQuery (fun _ v => v.headD 0) []
            [("resume", [(1 : ℚ)]), ("faq", [2]), ("blog", [2])]).bestIntent = e.1
        ∧ (∀ f ∈ ([("resume", [(1 : ℚ)]), ("faq", [2]), ("blog", [2])] :
              List (String × List ℚ)),
            (fun (_ : List ℚ) (v : List ℚ) => v.headD 0) [] f.2
              ≤ (fun (_ : List ℚ) (v : List ℚ) => v.headD 0) [] e.2)
        ∧ ∀ f ∈ l1, (fun (_ : List ℚ) (v : List ℚ) => v.headD 0) [] f.2
            < (fun (_ : List ℚ) (v : List ℚ) => v.headD 0) [] e.2 :=
  ⟨by simp,
    C6_classifier_argmax (fun _ v => v.headD 0) []
      [("resume", [(1 : ℚ)]), ("faq", [2]), ("blog", [2])] (by simp)⟩

/-- Concatenation of a list of strings in order. -/
def concatAll : List String → String
  | [] => ""
  | s :: rest => s ++ concatAll rest

/-- Helper: concatenation distributes over list append. -/
theorem concatAll_append (l1 l2 : List String) :
    concatAll (l1 ++ l2) = concatAll l1 ++ concatAll l2 := by
  induction l1 with
  | nil => simp [concatAll]
  | cons s rest ih => simp [concatAll, ih, String.append_assoc]

/-- Helper: a halted handler state absorbs any line. -/
theorem processLine_halted (extract : String → Option String) (st : StreamState)
    (line : String) (hh : st.halted = true) :
    processLine extract st line = st := by
  simp [processLine, hh]

/-- Helper: a halted handler state absorbs the rest of its buffer. -/
theorem foldl_processLine_halted (extract : String → Option String) :
    ∀ (lines : List String) (st : StreamState), st.halted = true →
      List.foldl (processLine extract) st lines = st := by
  intro lines
  induction lines with
  | nil => intro st _; rfl
  | cons l rest ih =>
      intro st hh
      rw [List.foldl_cons, processLine_halted extract st l hh, ih st hh]

/-- Helper: a non-sentinel line appends its delta (if any) to both the
accumulated text and the delivered chunks, and changes nothing else. -/
theorem processLine_not_done (extract : String → Option String)
    (st : StreamState) (line : String) (hh : st.halted = false)
    (hd : isDoneLine line = false) :
    processLine extract st line =
      { st with
        fullContent := st.fullContent ++ (lineDelta extract line).getD ""
        delivered := st.delivered ++ (lineDelta extract line).toList } := by
  obtain ⟨fc, dl, rm, ht⟩ := st
  simp only at hh
  subst hh
  by_cases hs : startsWithData line = true
  · have hnd : ¬(line.drop 6 = "[DONE]") := by
      intro hEq
      rw [isDoneLine, hs, hEq] at hd
      simp at hd
    cases hx : extract (line.drop 6) with
    | none => simp [processLine, lineDelta, hs, hnd, hx]
    | some c =>
        by_cases hc : c = ""
        · subst hc; simp [processLine, lineDelta, hs, hnd, hx]
        · simp [processLine, lineDelta, hs, hnd, hx, hc]
  · simp [processLine, lineDelta, hs]

/-- Helper: a sentinel line resolves with the accumulated text (first
resolution wins) and halts the current buffer. -/
theorem processLine_done (extract : String → Option String) (st : StreamState)
    (line : String) (hh : st.halted = false) (hd : isDoneLine line = true) :
    processLine extract st line =
      { st with
        resolvedMsg := match st.resolvedMsg with
          | some m => some m
          | none => some st.fullContent
        halted := true } := by
  rw [isDoneLine, Bool.and_eq_true] at hd
  obtain ⟨hs, he⟩ := hd
  rw [beq_iff_eq] at he
  simp [processLine, hh, hs, he]

/-- Helper: folding a sentinel-free line list keeps the promise pending,
keeps the handler live, and appends exactly the non-empty deltas, in order,
to both the delivered list and the accumulated text. -/
theorem foldl_processLine_not_done (extract : String → Option String) :
    ∀ (lines : List String) (st : StreamState), st.halted = false →
      (∀ l ∈ lines, isDoneLine l = false) →
      List.foldl (processLine extract) st lines =
        { st with
          fullContent := st.fullContent ++ concatAll (nonEmptyDeltas extract lines)
          delivered := st.delivered ++ nonEmptyDeltas extract lines } := by
  intro lines
  induction lines with
  | nil =>
      intro st hh _
      simp [nonEmptyDeltas, concatAll]
  | cons l rest ih =>
      intro st hh hnd
      obtain ⟨fc, dl, rm, ht⟩ := st
      simp only at hh
      subst hh
      rw [List.foldl_cons,
        processLine_not_done extract _ l rfl (hnd l (by simp)),
        ih _ rfl (fun x hx => hnd x (by simp [hx]))]
      cases hld : lineDelta extract l with
      | none =>
          simp only [nonEmptyDeltas, List.filterMap_cons, hld]
          simp only [Option.getD_none, Option.toList_none, List.append_nil,
            String.append_empty]
      | some c =>
          simp only [nonEmptyDeltas, List.filterMap_cons, hld]
          simp only [Option.getD_some, Option.toList_some, concatAll]
          rw [String.append_assoc]
          simp only [List.append_assoc, List.singleton_append]

/-- Helper: folding the data handler over sentinel-free buffers keeps the
promise pending, keeps the text/chunk invariant, and appends exactly the
deltas of all their lines in order. -/
theorem foldl_processBuffer_not_done (extract : String → Option String) :
    ∀ (bs : List (List String)) (st : StreamState),
      (∀ b ∈ bs, ∀ l ∈ b, isDoneLine l = false) →
      st.resolvedMsg = none →
      st.fullContent = concatAll st.delivered →
      (bs.foldl (processBuffer extract) st).resolvedMsg = none
      ∧ (bs.foldl (processBuffer extract) st).fullContent
          = concatAll (bs.foldl (processBuffer extract) st).delivered
      ∧ (bs.foldl (processBuffer extract) st).delivered
          = st.delivered ++ nonEmptyDeltas extract bs.flatten := by
  intro bs
  induction bs with
  | nil =>
      intro st _ h1 h2
      simp [nonEmptyDeltas]
      exact ⟨h1, h2⟩
  | cons b rest ih =>
      intro st hnd h1 h2
      rw [List.foldl_cons, processBuffer,
        foldl_processLine_not_done extract b { st with halted := false } rfl
          (hnd b (by simp))]
      have hres := ih { st with
          halted := false
          fullContent := st.fullContent ++ concatAll (nonEmptyDeltas extract b)
          delivered := st.delivered ++ nonEmptyDeltas extract b }
        (fun x hx => hnd x (by simp [hx])) h1 (by simp [h2, concatAll_append])
      refine ⟨hres.1, hres.2.1, ?_⟩
      rw [hres.2.2]
      simp [nonEmptyDeltas, List.filterMap_append, List.append_assoc]

/-- Helper: the head of a `dropWhile` residue fails the predicate. -/
theorem dropWhile_head_false (p : α → Bool) :
    ∀ (l : List α) (a : α) (t : List α), l.dropWhile p = a :: t → p a = false := by
  intro l
  induction l with
  | nil => intro a t h; simp [List.dropWhile] at h
  | cons x xs ih =>
      intro a t h
      rw [List.dropWhile_cons] at h
      by_cases hx : p x = true
      · rw [if_pos hx] at h
        exact ih a t h
      · rw [if_neg hx] at h
        cases h
        exact Bool.not_eq_true _ |>.mp hx

/-- C8: streaming preserves order and content.  For every backend frame
sequence in which the `[DONE]` sentinel occurs at most in the final buffer
(the backend terminates the stream with it), `onChunk` receives exactly the
non-empty content deltas of the processed frames, in arrival order, and
their concatenation equals the message text the promise resolves with. -/
theorem C8_streaming_order_content (extract : String → Option String)
    (bs : List (List String)) (lb : List String)
    (hbs : ∀ b ∈ bs, ∀ l ∈ b, isDoneLine l = false) :
    (generateStreamingResponse extract (bs ++ [lb])).resolvedMsg
      = some (concatAll (generateStreamingResponse extract (bs ++ [lb])).delivered)
    ∧ (generateStreamingResponse extract (bs ++ [lb])).delivered
      = nonEmptyDeltas extract
          (bs.flatten ++ lb.takeWhile (fun l => !isDoneLine l)) := by
  obtain ⟨hres1, hfull1, hdel1⟩ :=
    foldl_processBuffer_not_done extract bs streamInit hbs rfl rfl
  set st1 := bs.foldl (processBuffer extract) streamInit with hst1
  have hpre : ∀ l ∈ lb.takeWhile (fun l => !isDoneLine l), isDoneLine l = false := by
    intro l hl
    have := List.mem_takeWhile_imp hl
    simpa using this
  have hfold2 := foldl_processLine_not_done extract
    (lb.takeWhile (fun l => !isDoneLine l)) { st1 with halted := false } rfl hpre
  have hsplit := List.takeWhile_append_dropWhile (fun l => !isDoneLine l) lb
  have hgen : generateStreamingResponse extract (bs ++ [lb])
      = endResolve (processBuffer extract st1 lb) := by
    simp only [generateStreamingResponse, List.foldl_append, List.foldl_cons,
      List.foldl_nil]
  cases hdrop : lb.dropWhile (fun l => !isDoneLine l) with
  | nil =>
      have hlb : lb.takeWhile (fun l => !isDoneLine l) = lb := by
        have h2 := hsplit
        rw [hdrop, List.append_nil] at h2
        exact h2
      rw [hlb] at hfold2
      have hbody : processBuffer extract st1 lb
          = { st1 with
              halted := false
              fullContent := st1.fullContent ++ concatAll (nonEmptyDeltas extract lb)
              delivered := st1.delivered ++ nonEmptyDeltas extract lb } := by
        rw [processBuffer]
        exact hfold2
      constructor
      · rw [hgen, hbody]
        simp only [endResolve, hres1]
        simp [hfull1, concatAll_append]
      · rw [hgen, hbody]
        simp only [endResolve]
        rw [hlb]
        simp [hdel1, nonEmptyDeltas, List.filterMap_append, streamInit]
  | cons dl tl =>
      have hdl : isDoneLine dl = true := by
        have h3 := dropWhile_head_false (fun l => !isDoneLine l) lb dl tl hdrop
        simpa using h3
      have hlb : lb = lb.takeWhile (fun l => !isDoneLine l) ++ dl :: tl := by
        rw [← hdrop]
        exact hsplit.symm
      have hbody : processBuffer extract st1 lb
          = { st1 with
              halted := true
              fullContent := st1.fullContent
                ++ concatAll (nonEmptyDeltas extract (lb.takeWhile (fun l => !isDoneLine l)))
              delivered := st1.delivered
                ++ nonEmptyDeltas extract (lb.takeWhile (fun l => !isDoneLine l))
              resolvedMsg := some (st1.fullContent
                ++ concatAll (nonEmptyDeltas extract (lb.takeWhile (fun l => !isDoneLine l)))) } := by
        conv_lhs => rw [processBuffer, hlb]
        rw [List.foldl_append, hfold2, List.foldl_cons,
          processLine_done extract _ dl rfl hdl,
          foldl_processLine_halted extract tl _ rfl]
        simp [hres1]
      constructor
      · rw [hgen, hbody]
        simp only [endResolve]
        simp [hfull1, concatAll_append]
      · rw [hgen, hbody]
        simp only [endResolve]
        simp [hdel1, nonEmptyDeltas, List.filterMap_append, streamInit]

/-- Witness for C8 at a concrete two-buffer stream ending in the sentinel. -/
theorem C8_streaming_order_content_witness :
    (∀ b ∈ [["data: A"]], ∀ l ∈ b, isDoneLine l = false)
    ∧ (generateStreamingResponse some ([["data: A"]] ++ [["data: B", "data: [DONE]"]])).resolvedMsg
      = some (concatAll
          (generateStreamingResponse some ([["data: A"]] ++ [["data: B", "data: [DONE]"]])).delivered) :=
  ⟨by decide,
    (C8_streaming_order_content some [["data: A"]] ["data: B", "data: [DONE]"]
      (by decide)).1⟩

end Signal
